import Mathlib

/-!
# Verification of fish-shell's topic monitor (`src/topic_monitor.h`)

A shallow embedding of the topic-monitor primitive: the fixed topic
enumeration, the `generation_list_t` value type with its accessors and
minimum-merge, the per-topic bitmasks, and a state-transition model of the
monitor's posting and drain operations.  Generations are `uint64_t` in the
source; the operations embedded here perform no overflowing arithmetic on
them (the sentinel is the maximum representable value, written explicitly),
so they are modelled as `Nat` with the 64-bit bounds stated where relevant.
-/

/-- A generation value which indicates the topic is not of interest.
In the source this is `std::numeric_limits<uint64_t>::max()`, i.e. `2^64 - 1`. -/
def invalid_generation : Nat := 2 ^ 64 - 1

/-- The list of topics which may be observed (`enum class topic_t : uint8_t`). -/
inductive topic_t : Type
  | sighupint
  | sigchld
  | internal_exit
  deriving DecidableEq, Repr, Fintype

/-- The `uint8_t` discriminant of each enumerator, in declaration order. -/
def topic_t.discriminant : topic_t → Nat
  | .sighupint => 0
  | .sigchld => 1
  | .internal_exit => 2

/-- Helper to return all topics, allowing easy iteration (`all_topics()`). -/
def all_topics : List topic_t :=
  [topic_t.sighupint, topic_t.sigchld, topic_t.internal_exit]

/-- Simple value type containing the values for a topic (`generation_list_t`).
Fields default to `0` as in the in-class initializers `generation_t sighupint{0};` etc. -/
structure generation_list_t where
  sighupint : Nat := 0
  sigchld : Nat := 0
  internal_exit : Nat := 0
  deriving DecidableEq, Repr

namespace generation_list_t

/-- The const overload `generation_t at(topic_t topic) const`, with its switch
cases in source order: `sighupint`, `sigchld`, `internal_exit`. -/
def «at» (g : generation_list_t) (topic : topic_t) : Nat :=
  match topic with
  | .sighupint => g.sighupint
  | .sigchld => g.sigchld
  | .internal_exit => g.internal_exit

/-- Reading through the non-const overload `generation_t &at(topic_t topic)`,
with its switch cases in source order: `sigchld`, `sighupint`, `internal_exit`. -/
def atRef (g : generation_list_t) (topic : topic_t) : Nat :=
  match topic with
  | .sigchld => g.sigchld
  | .sighupint => g.sighupint
  | .internal_exit => g.internal_exit

/-- Writing through the reference returned by the non-const overload
`generation_t &at(topic_t topic)`: the selected field is replaced. -/
def setAt (g : generation_list_t) (topic : topic_t) (v : Nat) : generation_list_t :=
  match topic with
  | .sigchld => { g with sigchld := v }
  | .sighupint => { g with sighupint := v }
  | .internal_exit => { g with internal_exit := v }

/-- `std::array<generation_t, 3> as_array() const { return {{sighupint, sigchld, internal_exit}}; }` -/
def as_array (g : generation_list_t) : List Nat :=
  [g.sighupint, g.sigchld, g.internal_exit]

/-- `set_min_from(topic, other)`: `if (this->at(topic) > other.at(topic)) this->at(topic) = other.at(topic);`.
`this->at` resolves to the non-const overload, `other.at` to the const one. -/
def set_min_from (g : generation_list_t) (topic : topic_t) (other : generation_list_t) :
    generation_list_t :=
  if g.atRef topic > other.«at» topic then g.setAt topic (other.«at» topic) else g

/-- `bool is_valid(topic_t topic) const { return this->at(topic) != invalid_generation; }` -/
def is_valid (g : generation_list_t) (topic : topic_t) : Bool :=
  g.«at» topic != invalid_generation

/-- `any_valid()`: iterate `as_array()`, latching `valid` to true on any
non-sentinel entry. -/
def any_valid (g : generation_list_t) : Bool :=
  (g.as_array).foldl (fun valid gen => if gen != invalid_generation then true else valid) false

/-- `static generation_list_t invalids()`: the all-sentinel list. -/
def invalids : generation_list_t :=
  { sighupint := invalid_generation, sigchld := invalid_generation,
    internal_exit := invalid_generation }

end generation_list_t

namespace topic_monitor_t

/-- `static topic_bitmask_t topic_to_bit(topic_t t) { return 1 << static_cast<topic_bitmask_t>(t); }`,
where `topic_bitmask_t` is `uint8_t`: the `int` result of the shift is truncated to 8 bits
on return. -/
def topic_to_bit (t : topic_t) : Nat :=
  (1 <<< t.discriminant) % 2 ^ 8

/-- The mutex-guarded `struct data_t` of `topic_monitor_t`. -/
structure data_t where
  current : generation_list_t := {}
  has_reader : Bool := false

/-- The state of a `topic_monitor_t`: the locked `data_` plus the atomic
`pending_updates_` bitmask (`std::atomic<topic_bitmask_t>`, zero-initialised). -/
structure state_t where
  data : data_t := {}
  pending_updates : Nat := 0

/-- Modelled from the spec: the body of `topic_monitor_t::updated_gens_in_data`
is not part of the sources here (only its declaration is).  Per spec section 4.3,
the drain atomically exchanges the pending-update bitmask with zero and, for each
set bit, increments the authoritative generation vector's counter for that kind
by exactly one.  This function applies those increments to the current vector. -/
def drain_current (current : generation_list_t) (pending : Nat) : generation_list_t :=
  all_topics.foldl
    (fun g t => if pending &&& topic_to_bit t != 0 then g.setAt t (g.atRef t + 1) else g)
    current

/-- Modelled from the spec: `updated_gens()` (spec section 4.4) acquires the lock,
drains pending updates into the authoritative vector, and returns a copy of it.
The returned pair is (returned generation list, monitor state afterwards). -/
def updated_gens (s : state_t) : generation_list_t × state_t :=
  let cur := drain_current s.data.current s.pending_updates
  (cur, { s with data := { s.data with current := cur }, pending_updates := 0 })

/-- `generation_list_t current_generations() { return updated_gens(); }` -/
def current_generations (s : state_t) : generation_list_t × state_t :=
  updated_gens s

/-- Modelled from the spec: the body of `topic_monitor_t::post` is not part of
the sources here.  Per spec section 4.2, it atomically sets the bit for the kind
in the pending-update bitmask (and then performs a best-effort wakeup write,
which does not affect monitor state). -/
def post (s : state_t) (topic : topic_t) : state_t :=
  { s with pending_updates := s.pending_updates ||| topic_to_bit topic }

/-- One externally visible transition of a monitor: a posting context posts some
topic, or some thread runs a drain-and-return query (`current_generations`,
discarding the returned copy here). -/
inductive step : state_t → state_t → Prop
  | post (s : state_t) (t : topic_t) : step s (post s t)
  | query (s : state_t) : step s (current_generations s).2

/-- The reflexive-transitive closure of `step`: any number of interleaved posts
and queries. -/
inductive steps : state_t → state_t → Prop
  | refl (s : state_t) : steps s s
  | tail {s t u : state_t} : steps s t → step t u → steps s u

end topic_monitor_t

/-- The raw form of the non-const `at` overload, taking the `uint8_t`
discriminant directly: the switch tests its cases in source order
(`sigchld`, `sighupint`, `internal_exit`) and any other value falls through
to `DIE("Unreachable")`, modelled as `none`. -/
def generation_list_t.atRefRaw (g : generation_list_t) (d : Nat) : Option Nat :=
  if d = topic_t.discriminant .sigchld then some g.sigchld
  else if d = topic_t.discriminant .sighupint then some g.sighupint
  else if d = topic_t.discriminant .internal_exit then some g.internal_exit
  else none

/-- The raw form of the const `at` overload, taking the `uint8_t` discriminant
directly: cases in source order (`sighupint`, `sigchld`, `internal_exit`),
with the `DIE("Unreachable")` fall-through modelled as `none`. -/
def generation_list_t.atConstRaw (g : generation_list_t) (d : Nat) : Option Nat :=
  if d = topic_t.discriminant .sighupint then some g.sighupint
  else if d = topic_t.discriminant .sigchld then some g.sigchld
  else if d = topic_t.discriminant .internal_exit then some g.internal_exit
  else none

theorem generation_list_t.atRef_eq_at (g : generation_list_t) (t : topic_t) :
    g.atRef t = g.«at» t := by
  cases t <;> rfl

theorem generation_list_t.at_setAt (g : generation_list_t) (t j : topic_t) (v : Nat) :
    (g.setAt t v).«at» j = if j = t then v else g.«at» j := by
  cases t <;> cases j <;> simp [generation_list_t.setAt, generation_list_t.«at»]

/-- C9: the const and non-const overloads of `generation_list_t::at` agree on
every enumerator, despite listing their switch cases in different orders. -/
theorem at_overloads_agree (g : generation_list_t) (t : topic_t) :
    g.atRef t = g.«at» t := by
  cases t <;> rfl

/-- C2: after `set_min_from(k, o)`, the value at `k` is the minimum of the old
value at `k` and `o`'s value at `k`. -/
theorem set_min_from_at_self (g o : generation_list_t) (k : topic_t) :
    (g.set_min_from k o).«at» k = min (g.«at» k) (o.«at» k) := by
  rw [generation_list_t.set_min_from, generation_list_t.atRef_eq_at]
  split
  · simp only [generation_list_t.at_setAt, eq_self_iff_true, if_true]
    omega
  · omega

/-- C7: `set_min_from(k, o)` leaves every topic other than `k` unchanged in the
receiver (and, being a `const` reference argument, `o` is not modified at all:
the embedding is functional, so `o` cannot change). -/
theorem set_min_from_frame (g o : generation_list_t) (k j : topic_t) (hjk : j ≠ k) :
    (g.set_min_from k o).«at» j = g.«at» j := by
  rw [generation_list_t.set_min_from]
  split
  · rw [generation_list_t.at_setAt, if_neg hjk]
  · rfl

/-- Witness for C7 at concrete inputs. -/
theorem set_min_from_frame_witness :
    (({ sighupint := 5, sigchld := 7, internal_exit := 9 } :
        generation_list_t).set_min_from .sigchld {}).«at» .sighupint =
      ({ sighupint := 5, sigchld := 7, internal_exit := 9 } : generation_list_t).«at» .sighupint :=
  set_min_from_frame { sighupint := 5, sigchld := 7, internal_exit := 9 } {}
    .sigchld .sighupint (by decide)

/-- C4: `is_valid(k)` holds exactly when the value at `k` differs from the
sentinel, and the sentinel is the maximum representable 64-bit value. -/
theorem is_valid_iff (g : generation_list_t) (k : topic_t) :
    (g.is_valid k = true ↔ g.«at» k ≠ invalid_generation) ∧
      invalid_generation = 2 ^ 64 - 1 := by
  refine ⟨?_, rfl⟩
  simp [generation_list_t.is_valid]

/-- C5: `any_valid()` holds exactly when some topic's value differs from the
sentinel; in particular it is false on `invalids()`. -/
theorem any_valid_iff (g : generation_list_t) :
    (g.any_valid = true ↔ ∃ k : topic_t, g.«at» k ≠ invalid_generation) ∧
      generation_list_t.invalids.any_valid = false := by
  refine ⟨?_, by decide⟩
  have hfold : g.any_valid = true ↔
      (g.sighupint ≠ invalid_generation ∨ g.sigchld ≠ invalid_generation ∨
        g.internal_exit ≠ invalid_generation) := by
    simp only [generation_list_t.any_valid, generation_list_t.as_array, List.foldl]
    by_cases h1 : g.sighupint = invalid_generation <;>
      by_cases h2 : g.sigchld = invalid_generation <;>
        by_cases h3 : g.internal_exit = invalid_generation <;>
          simp [h1, h2, h3]
  rw [hfold]
  constructor
  · rintro (h | h | h)
    exacts [⟨.sighupint, h⟩, ⟨.sigchld, h⟩, ⟨.internal_exit, h⟩]
  · rintro ⟨k, hk⟩
    cases k <;> simp only [generation_list_t.«at»] at hk <;> tauto

/-- C6: `as_array()` lists the generations in the fixed topic order of
`all_topics()`: entry `i` equals the value at the `i`-th topic. -/
theorem as_array_ordered (g : generation_list_t) (i : Nat) (hi : i < 3) :
    g.as_array.getD i 0 = g.«at» (all_topics.getD i .sighupint) := by
  interval_cases i <;> rfl

/-- Witness for C6 at a concrete index. -/
theorem as_array_ordered_witness :
    ({ sighupint := 4, sigchld := 5, internal_exit := 6 } :
        generation_list_t).as_array.getD 1 0 =
      ({ sighupint := 4, sigchld := 5, internal_exit := 6 } :
        generation_list_t).«at» (all_topics.getD 1 .sighupint) :=
  as_array_ordered { sighupint := 4, sigchld := 5, internal_exit := 6 } 1 (by decide)

/-- C10: a default-constructed `generation_list_t` has every topic at `0`, so
every topic is valid and `any_valid()` holds. -/
theorem default_generation_list_tracks_all :
    (∀ k : topic_t, ({} : generation_list_t).«at» k = 0 ∧
      ({} : generation_list_t).is_valid k = true) ∧
      ({} : generation_list_t).any_valid = true := by
  refine ⟨fun k => ?_, by decide⟩
  cases k <;> exact ⟨rfl, by decide⟩

/-- C3: on every valid enumerator both `at` overloads return the corresponding
field without reaching the `DIE` branch; the `DIE` branch (modelled as `none`)
is reached exactly by out-of-range discriminants. -/
theorem at_total_on_enumerators (g : generation_list_t) (t : topic_t) (d : Nat)
    (hd : 3 ≤ d) :
    g.atRefRaw t.discriminant = some (g.atRef t) ∧
      g.atConstRaw t.discriminant = some (g.«at» t) ∧
      g.atRefRaw d = none ∧ g.atConstRaw d = none := by
  refine ⟨?_, ?_, ?_, ?_⟩
  · cases t <;> rfl
  · cases t <;> rfl
  · rw [generation_list_t.atRefRaw]
    simp only [topic_t.discriminant]
    rw [if_neg (by omega), if_neg (by omega), if_neg (by omega)]
  · rw [generation_list_t.atConstRaw]
    simp only [topic_t.discriminant]
    rw [if_neg (by omega), if_neg (by omega), if_neg (by omega)]

/-- Witness for C3 at concrete inputs. -/
theorem at_total_on_enumerators_witness :
    ({ sigchld := 11 } : generation_list_t).atRefRaw (topic_t.discriminant .sigchld) =
        some (({ sigchld := 11 } : generation_list_t).atRef .sigchld) ∧
      ({ sigchld := 11 } : generation_list_t).atConstRaw (topic_t.discriminant .sigchld) =
        some (({ sigchld := 11 } : generation_list_t).«at» .sigchld) ∧
      ({ sigchld := 11 } : generation_list_t).atRefRaw 3 = none ∧
      ({ sigchld := 11 } : generation_list_t).atConstRaw 3 = none :=
  at_total_on_enumerators { sigchld := 11 } .sigchld 3 (by decide)

/-- C8: `topic_to_bit` gives each topic the single bit `1 << discriminant`
(no truncation occurs); the masks of distinct topics are distinct and
pairwise disjoint, each fits in the 8-bit bitmask type, and the kind count
does not exceed the bit width 8. -/
theorem topic_to_bit_spec :
    (∀ t : topic_t, topic_monitor_t.topic_to_bit t = 1 <<< t.discriminant) ∧
      (∀ t : topic_t, topic_monitor_t.topic_to_bit t < 2 ^ 8) ∧
      (∀ t u : topic_t, t ≠ u →
        topic_monitor_t.topic_to_bit t ≠ topic_monitor_t.topic_to_bit u ∧
          topic_monitor_t.topic_to_bit t &&& topic_monitor_t.topic_to_bit u = 0) ∧
      all_topics.length ≤ 8 := by
  decide

/-- Witness for C8 at a concrete pair of distinct topics. -/
theorem topic_to_bit_spec_witness :
    topic_monitor_t.topic_to_bit .sighupint ≠ topic_monitor_t.topic_to_bit .sigchld ∧
      topic_monitor_t.topic_to_bit .sighupint &&& topic_monitor_t.topic_to_bit .sigchld = 0 :=
  topic_to_bit_spec.2.2.1 .sighupint .sigchld (by decide)

namespace topic_monitor_t

theorem topic_to_bit_eq_pow (t : topic_t) : topic_to_bit t = 2 ^ t.discriminant := by
  cases t <;> rfl

/-- Unfolding of the drain loop into one conditional increment per field. -/
theorem drain_current_eq (g : generation_list_t) (p : Nat) :
    drain_current g p =
      { sighupint := g.sighupint + (if p &&& topic_to_bit .sighupint != 0 then 1 else 0),
        sigchld := g.sigchld + (if p &&& topic_to_bit .sigchld != 0 then 1 else 0),
        internal_exit :=
          g.internal_exit + (if p &&& topic_to_bit .internal_exit != 0 then 1 else 0) } := by
  simp only [drain_current, all_topics, List.foldl]
  by_cases h1 : p &&& topic_to_bit .sighupint != 0 <;>
    by_cases h2 : p &&& topic_to_bit .sigchld != 0 <;>
      by_cases h3 : p &&& topic_to_bit .internal_exit != 0 <;>
        simp [h1, h2, h3, generation_list_t.setAt, generation_list_t.atRef]

theorem drain_current_at (g : generation_list_t) (p : Nat) (k : topic_t) :
    (drain_current g p).«at» k =
      g.«at» k + (if p &&& topic_to_bit k != 0 then 1 else 0) := by
  rw [drain_current_eq]
  cases k <;> rfl

theorem drain_current_zero (g : generation_list_t) : drain_current g 0 = g := by
  cases g
  rw [drain_current_eq]
  simp [Nat.zero_and]

/-- Setting one topic's pending bit never clears another's. -/
theorem and_bit_of_or_bit (p : Nat) (t k : topic_t)
    (h : p &&& topic_to_bit k ≠ 0) : (p ||| topic_to_bit t) &&& topic_to_bit k ≠ 0 := by
  rw [topic_to_bit_eq_pow k, Nat.and_two_pow] at h ⊢
  rw [Nat.testBit_or]
  rcases Bool.eq_false_or_eq_true (p.testBit k.discriminant) with hb | hb
  · rw [hb]
    simp
  · rw [hb] at h
    simp at h

/-- The generation list a drain at state `s` would produce. -/
def drained (s : state_t) : generation_list_t :=
  drain_current s.data.current s.pending_updates

theorem drained_post_le (s : state_t) (t k : topic_t) :
    (drained s).«at» k ≤ (drained (post s t)).«at» k := by
  simp only [drained, post, drain_current_at]
  have : (if s.pending_updates &&& topic_to_bit k != 0 then 1 else 0) ≤
      (if (s.pending_updates ||| topic_to_bit t) &&& topic_to_bit k != 0 then 1 else 0) := by
    split
    · rename_i h
      rw [if_pos]
      simpa using and_bit_of_or_bit s.pending_updates t k (by simpa using h)
    · exact Nat.zero_le _
  omega

theorem drained_query_eq (s : state_t) :
    drained (current_generations s).2 = drained s := by
  simp only [drained, current_generations, updated_gens]
  exact drain_current_zero _

theorem drained_step_le {s s' : state_t} (h : step s s') (k : topic_t) :
    (drained s).«at» k ≤ (drained s').«at» k := by
  cases h with
  | post t => exact drained_post_le s t k
  | query => rw [drained_query_eq]

theorem drained_steps_le {s s' : state_t} (h : steps s s') (k : topic_t) :
    (drained s).«at» k ≤ (drained s').«at» k := by
  induction h with
  | refl => exact Nat.le_refl _
  | tail _ hstep ih => exact Nat.le_trans ih (drained_step_le hstep k)

end topic_monitor_t

/-- C1: across any interleaving of posts and queries between two calls to
`current_generations()` on the same monitor, the generation returned for any
topic by the later call is at least the one returned by the earlier call. -/
theorem current_generations_monotone (s s' : topic_monitor_t.state_t) (k : topic_t)
    (h : topic_monitor_t.steps (topic_monitor_t.current_generations s).2 s') :
    ((topic_monitor_t.current_generations s).1).«at» k ≤
      ((topic_monitor_t.current_generations s').1).«at» k := by
  have h1 : (topic_monitor_t.current_generations s).1 = topic_monitor_t.drained s := rfl
  have h2 : (topic_monitor_t.current_generations s').1 = topic_monitor_t.drained s' := rfl
  rw [h1, h2, ← topic_monitor_t.drained_query_eq s]
  exact topic_monitor_t.drained_steps_le h k

/-- Witness for C1: a concrete post of `sigchld` between two queries. -/
theorem current_generations_monotone_witness :
    ((topic_monitor_t.current_generations ({} : topic_monitor_t.state_t)).1).«at» .sigchld ≤
      ((topic_monitor_t.current_generations
        (topic_monitor_t.post
          (topic_monitor_t.current_generations ({} : topic_monitor_t.state_t)).2
          .sigchld)).1).«at» .sigchld :=
  current_generations_monotone {}
    (topic_monitor_t.post
      (topic_monitor_t.current_generations ({} : topic_monitor_t.state_t)).2 .sigchld)
    .sigchld
    (topic_monitor_t.steps.tail (topic_monitor_t.steps.refl _)
      (topic_monitor_t.step.post _ .sigchld))
